import Mathlib

/-!
Shallow embedding of `src/app/main.py` (vless_config_aggregator).

Bytes are modelled as `List Nat` (each entry a byte value `< 256`).
Network and environment effects are modelled as explicit oracles:
an environment is a function `String → Option String` (`os.getenv`),
a network is a function from request URL to an `HttpResult`
(the outcome of one `httpx` GET), and a local-file read is an
`Option (List String)` (`none` = `FileNotFoundError`).
Raised Python exceptions are modelled by `Except PyErr`.
-/

/-- Outcome of one `httpx` GET as seen by the calling code:
a 2xx response with body text (`raise_for_status` returns), a non-2xx
response (`raise_for_status` raises `httpx.HTTPStatusError`), or a
transport error such as a timeout (an `httpx.RequestError`). -/
inductive HttpResult where
  | success (body : String)
  | statusError
  | transportError
deriving DecidableEq, Repr

/-- A raised Python exception, as distinguished by this program's handlers. -/
inductive PyErr where
  /-- A raised `fastapi.HTTPException(status_code, detail)`: a clean mapped HTTP error response. -/
  | httpException (status : Nat) (detail : String)
  /-- A re-raised `FileNotFoundError`: unhandled, crashes the request. -/
  | fileNotFound
  /-- An uncaught `httpx.RequestError` (transport error / timeout): unhandled. -/
  | transportError
  /-- An uncaught `binascii.Error` from `base64.b64decode`: unhandled. -/
  | binasciiError
deriving DecidableEq, Repr

/-- Python `str.strip()` on a character list: drop leading and trailing
whitespace. -/
def stripChars (l : List Char) : List Char :=
  ((l.dropWhile Char.isWhitespace).reverse.dropWhile Char.isWhitespace).reverse

/-- Python `str.strip()`. -/
def pyStrip (s : String) : String := ⟨stripChars s.data⟩

/-- Python `str.startswith(p)`. -/
def pyStartswith (s p : String) : Bool := p.data.isPrefixOf s.data

deriving instance DecidableEq for Except

/-- Python `str.splitlines()`: split on `\n`, `\r\n` or `\r`; a trailing
line break produces no final empty line. `acc` holds the current line's
characters in reverse. -/
def splitlinesAux : List Char → List Char → List String
  | [], [] => []
  | [], acc => [⟨acc.reverse⟩]
  | '\r' :: '\n' :: rest, acc => (⟨acc.reverse⟩ : String) :: splitlinesAux rest []
  | '\n' :: rest, acc => (⟨acc.reverse⟩ : String) :: splitlinesAux rest []
  | '\r' :: rest, acc => (⟨acc.reverse⟩ : String) :: splitlinesAux rest []
  | c :: rest, acc => splitlinesAux rest (c :: acc)

/-- Python `str.splitlines()`. -/
def pySplitlines (s : String) : List String := splitlinesAux s.data []

/-- UTF-8 encoding of one character (Python `str.encode()` is UTF-8). -/
def utf8Encode (c : Char) : List Nat :=
  let n := c.toNat
  if n < 0x80 then [n]
  else if n < 0x800 then [0xC0 + n / 64, 0x80 + n % 64]
  else if n < 0x10000 then [0xE0 + n / 4096, 0x80 + n / 64 % 64, 0x80 + n % 64]
  else [0xF0 + n / 262144, 0x80 + n / 4096 % 64, 0x80 + n / 64 % 64, 0x80 + n % 64]

/-- Python `str.encode()`: UTF-8 bytes of a string. -/
def strToBytes (s : String) : List Nat := (s.data.map utf8Encode).flatten

/-- Python `bytes.join`: `sep.join(bs)` puts `sep` between consecutive
elements and nothing before the first or after the last. -/
def bjoin (sep : List Nat) : List (List Nat) → List Nat
  | [] => []
  | b :: bs =>
    match bs with
    | [] => b
    | _ :: _ => b ++ sep ++ bjoin sep bs

/-- The base64 alphabet, in index order. -/
def b64Alphabet : List Char :=
  "ABCDEFGHIJKLMNOPQRSTUVWXYZabcdefghijklmnopqrstuvwxyz0123456789+/".data

/-- Character of a 6-bit value. -/
def b64chr (n : Nat) : Char := b64Alphabet.getD n 'A'

/-- Index of a character in the base64 alphabet (`none` when not in it). -/
def b64val (c : Char) : Option Nat := List.findIdx? (fun a => a == c) b64Alphabet

/-- Characters of `base64.b64encode` on bytes: the base64 text with `=` padding. -/
def b64encodeChars : List Nat → List Char
  | [] => []
  | [x] => [b64chr (x / 4), b64chr (x % 4 * 16), '=', '=']
  | [x, y] => [b64chr (x / 4), b64chr (x % 4 * 16 + y / 16), b64chr (y % 16 * 4), '=']
  | x :: y :: z :: rest =>
    b64chr (x / 4) :: b64chr (x % 4 * 16 + y / 16) ::
      b64chr (y % 16 * 4 + z / 64) :: b64chr (z % 64) :: b64encodeChars rest

/-- Python `base64.b64encode`, as the text written to the response body. -/
def b64encode (bs : List Nat) : String := ⟨b64encodeChars bs⟩

/-- Decode groups of four base64 characters (input already filtered to
alphabet characters and `=`).  A group ending in padding yields the final
bytes and the remainder is discarded; a leftover of 1–3 characters, or
misplaced padding, is a `binascii.Error` (`none`), as in CPython's
non-strict `a2b_base64`. -/
def b64decodeChars : List Char → Option (List Nat)
  | [] => some []
  | a :: b :: c :: d :: rest =>
    match b64val a, b64val b with
    | some va, some vb =>
      if c = '=' then
        if d = '=' then some [va * 4 + vb / 16] else none
      else
        match b64val c with
        | some vc =>
          if d = '=' then some [va * 4 + vb / 16, vb % 16 * 16 + vc / 4]
          else
            match b64val d with
            | some vd =>
              (b64decodeChars rest).map
                (fun r => (va * 4 + vb / 16) :: (vb % 16 * 16 + vc / 4) ::
                  (vc % 4 * 64 + vd) :: r)
            | none => none
        | none => none
    | _, _ => none
  | _ => none

/-- Python `base64.b64decode` with default `validate=False`: characters outside
the alphabet (other than `=`) are discarded before decoding; `none`
models a raised `binascii.Error`. -/
def b64decode (s : String) : Option (List Nat) :=
  b64decodeChars (s.data.filter (fun c => (b64val c).isSome || c == '='))

/-- The HTTP response built at the end of `main` (`fastapi.Response`).
A value of this type always means HTTP status 200. -/
structure HttpResponse where
  content : String
  media_type : String
  headers : List (String × String)
deriving DecidableEq, Repr

/-- Helper `_get_env` (main.py:33-38): `os.getenv`, then `strip()`; an unset
variable or one that strips to the empty string yields `None`. -/
def _get_env (env : String → Option String) (name : String) : Option String :=
  match env name with
  | none => none
  | some value =>
    let value := pyStrip value
    if value = "" then none else some value

/-- The local `profile_title` of `build_optional_headers` (main.py:42):
`_get_env("PROFILE_TITLE") or _get_env("SUB_NAME")` — Python `or`, which
is option fallback here because `_get_env` never returns an empty string. -/
def profile_title (env : String → Option String) : Option String :=
  match _get_env env "PROFILE_TITLE" with
  | some v => some v
  | none => _get_env env "SUB_NAME"

/-- Function `build_optional_headers` (main.py:41-51).  The dict comprehension
`if value` keeps a pair only if the value is neither `None` nor empty
(insertion order preserved). -/
def build_optional_headers (env : String → Option String) : List (String × String) :=
  List.filterMap (fun kv =>
    match kv.2 with
    | some value => if value = "" then none else some (kv.1, value)
    | none => none)
  [("profile-title", profile_title env),
   ("support-url", _get_env env "SUPPORT_URL"),
   ("profile-web-page-url", _get_env env "PROFILE_WEB_PAGE_URL"),
   ("announce", _get_env env "ANNOUNCE"),
   ("profile-update-interval", _get_env env "PROFILE_UPDATE_INTERVAL"),
   ("providerid", _get_env env "PROVIDER_ID")]

/-- The two list comprehensions of `fetch_links` (main.py:77-88): a line
goes to the first list iff its stripped text starts with `http`, to the
second iff its stripped text starts with `vless://`. -/
def classify (lines : List String) : List String × List String :=
  (lines.filterMap (fun line =>
      if pyStartswith (pyStrip line) "http" then some (pyStrip line) else none),
   lines.filterMap (fun line =>
      if pyStartswith (pyStrip line) "vless://" then some (pyStrip line) else none))

/-- Function `fetch_links` (main.py:54-97).  `localMode` is
`os.getenv('LOCAL_MODE') == 'on'`; `fileRes` is the result of reading
`configs.txt` (`none` = `FileNotFoundError`, which is caught, logged and
re-raised); `cfgRes` is the outcome of the single GET to `CONFIG_URL`
(the optional `GITHUB_TOKEN` header has no observable effect here).
Only `httpx.HTTPStatusError` is turned into `HTTPException(404)`; a
transport error is caught by neither handler and propagates. -/
def fetch_links (localMode : Bool) (fileRes : Option (List String))
    (cfgRes : HttpResult) : Except PyErr (List String × List String) :=
  if localMode then
    match fileRes with
    | none => .error .fileNotFound
    | some lines => .ok (classify lines)
  else
    match cfgRes with
    | .success text => .ok (classify (pySplitlines text))
    | .statusError => .error (.httpException 404 "Config file not found")
    | .transportError => .error .transportError

/-- Function `fetch_subscription` (main.py:100-110): one GET to
`sub_link + sub_id`; any `httpx.HTTPError` (transport error or
`raise_for_status` on a non-2xx) is caught, logged, and the function
returns `None`.  A `binascii.Error` from `base64.b64decode` is not an
`httpx.HTTPError`, so it propagates out (`.error .binasciiError`). -/
def fetch_subscription (net : String → HttpResult) (sub_link : String)
    (sub_id : String) : Except PyErr (Option (List Nat)) :=
  match net (sub_link ++ sub_id) with
  | .success body =>
    match b64decode body with
    | some bs => .ok (some bs)
    | none => .error .binasciiError
  | .statusError => .ok none
  | .transportError => .ok none

/-- Model of `asyncio.gather` over the fetch coroutines: results come back in
input order (not completion order); with `return_exceptions=False` the
first raised exception propagates to the awaiter. -/
def gatherE {α : Type} : List (Except PyErr α) → Except PyErr (List α)
  | [] => .ok []
  | x :: xs =>
    match x with
    | .error e => .error e
    | .ok v =>
      match gatherE xs with
      | .error e => .error e
      | .ok vs => .ok (v :: vs)

/-- Function `merge_all` (main.py:113-135): gather all subscription fetches,
keep the non-`None` payloads, raise `HTTPException(500)` when both the
payload list and the inline list are empty (the `elif` branch only
logs), then return `b''.join(data) + b'\n'.join(encoded_vless_links)`. -/
def merge_all (net : String → HttpResult) (sub_links vless_links : List String)
    (sub_id : String) : Except PyErr (List Nat) :=
  match gatherE (sub_links.map (fun sub_url => fetch_subscription net sub_url sub_id)) with
  | .error e => .error e
  | .ok tmp =>
    let data := tmp.filterMap id
    if data = [] ∧ vless_links = [] then
      .error (.httpException 500 "There is nothing to return")
    else
      let encoded_vless_links := vless_links.map strToBytes
      let merged_subs := bjoin [] data
      let merged_configs := bjoin [10] encoded_vless_links
      .ok (merged_subs ++ merged_configs)

/-- Handler `main` (main.py:141-153): fetch and classify the source list, fail
fast with `HTTPException(500)` when both lists are empty, merge, base64
encode, and respond with media type `text/plain` and the optional
headers. -/
def app.main (env : String → Option String) (fileRes : Option (List String))
    (cfgRes : HttpResult) (net : String → HttpResult) (sub_id : String) :
    Except PyErr HttpResponse :=
  match fetch_links (env "LOCAL_MODE" == some "on") fileRes cfgRes with
  | .error e => .error e
  | .ok (sub_links, vless_links) =>
    if sub_links = [] ∧ vless_links = [] then
      .error (.httpException 500 "There is nothing to return")
    else
      match merge_all net sub_links vless_links sub_id with
      | .error e => .error e
      | .ok result =>
        .ok { content := b64encode result, media_type := "text/plain",
              headers := build_optional_headers env }

/-- The outcome slot of one endpoint, as section 5 of the spec describes the
fan-out: the payload when the fetch succeeded, the absence marker otherwise. -/
def fetchOutcome (net : String → HttpResult) (sub_id : String)
    (sub_link : String) : Option (List Nat) :=
  match fetch_subscription net sub_link sub_id with
  | .ok o => o
  | .error _ => none

/-- The MergedPayload as sections 3 and 4.4 of the spec state it: the
successful outcomes' payloads concatenated in input order with no separator
between them, followed directly by the inline entries joined by a single
newline byte. -/
def mergedPayloadSpec (outcomes : List (Option (List Nat)))
    (inlines : List String) : List Nat :=
  (outcomes.filterMap id).flatten ++ List.intercalate [10] (inlines.map strToBytes)

/-- Unset, empty, or consisting only of whitespace: the blank cases for a configuration
value, as the spec's optional-header sentences phrase it. -/
def blankEnv (env : String → Option String) (name : String) : Prop :=
  env name = none ∨ ∃ v, env name = some v ∧ pyStrip v = ""

/-! ## Helper lemmas -/

theorem head_dropWhile_false {α : Type} (p : α → Bool) (l : List α) (a : α)
    (t : List α) (h : List.dropWhile p l = a :: t) : p a = false := by
  induction l with
  | nil => simp [List.dropWhile] at h
  | cons b l ih =>
    rw [List.dropWhile_cons] at h
    by_cases hb : p b
    · rw [if_pos hb] at h
      exact ih h
    · rw [if_neg hb] at h
      injection h with h1 _
      rw [← h1]
      exact Bool.not_eq_true _ ▸ hb

theorem dropWhile_idem {α : Type} (p : α → Bool) (l : List α) :
    List.dropWhile p (List.dropWhile p l) = List.dropWhile p l := by
  cases h : List.dropWhile p l with
  | nil => simp
  | cons a t =>
    rw [List.dropWhile_cons, head_dropWhile_false p l a t h]
    simp

theorem stripChars_prefix (l : List Char) :
    stripChars l <+: List.dropWhile Char.isWhitespace l := by
  have h := List.dropWhile_suffix
    (l := (List.dropWhile Char.isWhitespace l).reverse) Char.isWhitespace
  rw [show List.dropWhile Char.isWhitespace
        (List.dropWhile Char.isWhitespace l).reverse = (stripChars l).reverse from by
      simp [stripChars]] at h
  exact List.reverse_suffix.mp h

theorem dropWhile_stripChars (l : List Char) :
    List.dropWhile Char.isWhitespace (stripChars l) = stripChars l := by
  cases h : stripChars l with
  | nil => simp
  | cons a t =>
    obtain ⟨s, hs⟩ := stripChars_prefix l
    rw [h] at hs
    have ha := head_dropWhile_false Char.isWhitespace l a (t ++ s)
      (by rw [← hs]; rfl)
    rw [List.dropWhile_cons, ha]
    simp

theorem stripChars_idem (l : List Char) :
    stripChars (stripChars l) = stripChars l := by
  conv_lhs => rw [stripChars]
  rw [dropWhile_stripChars]
  have h2 : (stripChars l).reverse
      = List.dropWhile Char.isWhitespace (List.dropWhile Char.isWhitespace l).reverse := by
    simp [stripChars]
  rw [h2, dropWhile_idem, ← h2]
  simp

theorem pyStrip_idem (s : String) : pyStrip (pyStrip s) = pyStrip s :=
  congrArg String.mk (stripChars_idem s.data)

theorem http_vless_exclusive (t : String) :
    (pyStartswith t "http" && pyStartswith t "vless://") = false := by
  cases h1 : pyStartswith t "http" with
  | false => simp
  | true =>
    cases h2 : pyStartswith t "vless://" with
    | false => simp
    | true =>
      exfalso
      rw [pyStartswith, List.isPrefixOf_iff_prefix] at h1 h2
      obtain ⟨s1, hs1⟩ := h1
      obtain ⟨s2, hs2⟩ := h2
      rw [show ("http".data : List Char) = ['h', 't', 't', 'p'] from by decide] at hs1
      rw [show ("vless://".data : List Char)
          = ['v', 'l', 'e', 's', 's', ':', '/', '/'] from by decide] at hs2
      rw [← hs2] at hs1
      simp only [List.cons_append] at hs1
      injection hs1 with hh _
      exact absurd hh (by decide)

theorem classify_fst_mem (lines : List String) (x : String) :
    x ∈ (classify lines).1
      ↔ ∃ l ∈ lines, pyStrip l = x ∧ pyStartswith (pyStrip l) "http" = true := by
  simp only [classify, List.mem_filterMap]
  constructor
  · rintro ⟨l, hl, hf⟩
    by_cases hc : pyStartswith (pyStrip l) "http" = true
    · rw [if_pos hc] at hf
      injection hf with hf
      exact ⟨l, hl, hf, hc⟩
    · rw [if_neg hc] at hf
      cases hf
  · rintro ⟨l, hl, rfl, hc⟩
    exact ⟨l, hl, by rw [if_pos hc]⟩

theorem classify_snd_mem (lines : List String) (x : String) :
    x ∈ (classify lines).2
      ↔ ∃ l ∈ lines, pyStrip l = x ∧ pyStartswith (pyStrip l) "vless://" = true := by
  simp only [classify, List.mem_filterMap]
  constructor
  · rintro ⟨l, hl, hf⟩
    by_cases hc : pyStartswith (pyStrip l) "vless://" = true
    · rw [if_pos hc] at hf
      injection hf with hf
      exact ⟨l, hl, hf, hc⟩
    · rw [if_neg hc] at hf
      cases hf
  · rintro ⟨l, hl, rfl, hc⟩
    exact ⟨l, hl, by rw [if_pos hc]⟩

theorem classify_of_stripped_http (xs : List String)
    (h : ∀ x ∈ xs, pyStrip x = x ∧ pyStartswith x "http" = true) :
    classify xs = (xs, []) := by
  unfold classify
  refine Prod.ext ?_ ?_ <;> dsimp only
  · induction xs with
    | nil => rfl
    | cons a l ih =>
      obtain ⟨ha1, ha2⟩ := h a (by simp)
      rw [List.filterMap_cons, ha1, if_pos ha2]
      dsimp only
      rw [ih (fun x hx => h x (by simp [hx]))]
  · induction xs with
    | nil => rfl
    | cons a l ih =>
      obtain ⟨ha1, ha2⟩ := h a (by simp)
      have hv : pyStartswith a "vless://" = false := by
        have he := http_vless_exclusive a
        rw [ha2] at he
        simpa using he
      rw [List.filterMap_cons, ha1, hv]
      exact ih (fun x hx => h x (by simp [hx]))

theorem classify_of_stripped_vless (xs : List String)
    (h : ∀ x ∈ xs, pyStrip x = x ∧ pyStartswith x "vless://" = true) :
    classify xs = ([], xs) := by
  unfold classify
  refine Prod.ext ?_ ?_ <;> dsimp only
  · induction xs with
    | nil => rfl
    | cons a l ih =>
      obtain ⟨ha1, ha2⟩ := h a (by simp)
      have hh : pyStartswith a "http" = false := by
        have he := http_vless_exclusive a
        rw [ha2] at he
        simpa using he
      rw [List.filterMap_cons, ha1, hh]
      exact ih (fun x hx => h x (by simp [hx]))
  · induction xs with
    | nil => rfl
    | cons a l ih =>
      obtain ⟨ha1, ha2⟩ := h a (by simp)
      rw [List.filterMap_cons, ha1, if_pos ha2]
      dsimp only
      rw [ih (fun x hx => h x (by simp [hx]))]

theorem classify_fst_spec (lines : List String) :
    ∀ x ∈ (classify lines).1, pyStrip x = x ∧ pyStartswith x "http" = true := by
  intro x hx
  obtain ⟨l, _, rfl, hc⟩ := (classify_fst_mem lines x).mp hx
  exact ⟨pyStrip_idem l, hc⟩

theorem classify_snd_spec (lines : List String) :
    ∀ x ∈ (classify lines).2, pyStrip x = x ∧ pyStartswith x "vless://" = true := by
  intro x hx
  obtain ⟨l, _, rfl, hc⟩ := (classify_snd_mem lines x).mp hx
  exact ⟨pyStrip_idem l, hc⟩

theorem classify_append (a b : List String) :
    classify (a ++ b)
      = ((classify a).1 ++ (classify b).1, (classify a).2 ++ (classify b).2) := by
  simp [classify, List.filterMap_append]

theorem classify_reclassify (lines : List String) :
    classify ((classify lines).1 ++ (classify lines).2) = classify lines := by
  rw [classify_append,
    classify_of_stripped_http _ (classify_fst_spec lines),
    classify_of_stripped_vless _ (classify_snd_spec lines)]
  simp

theorem gatherE_nil {α : Type} : gatherE ([] : List (Except PyErr α)) = .ok [] := rfl

theorem gatherE_cons_error {α : Type} (e : PyErr) (xs : List (Except PyErr α)) :
    gatherE (.error e :: xs) = .error e := rfl

theorem gatherE_cons_ok {α : Type} (v : α) (xs : List (Except PyErr α)) :
    gatherE (.ok v :: xs)
      = match gatherE xs with
        | .error e => .error e
        | .ok vs => .ok (v :: vs) := rfl

theorem gatherE_append {α : Type} (xs ys : List (Except PyErr α)) :
    gatherE (xs ++ ys)
      = match gatherE xs with
        | .error e => .error e
        | .ok vs =>
          match gatherE ys with
          | .error e => .error e
          | .ok ws => .ok (vs ++ ws) := by
  induction xs with
  | nil =>
    rw [List.nil_append, gatherE_nil]
    cases gatherE ys <;> rfl
  | cons x xs ih =>
    cases x with
    | error e => rw [List.cons_append, gatherE_cons_error, gatherE_cons_error]
    | ok v =>
      rw [List.cons_append, gatherE_cons_ok, gatherE_cons_ok, ih]
      cases gatherE xs with
      | error e => rfl
      | ok vs => cases gatherE ys <;> rfl

theorem gatherE_map_ok {α β : Type} (f : β → Except PyErr α) :
    ∀ (l : List β) (tmp : List α), gatherE (l.map f) = .ok tmp →
      l.map f = tmp.map Except.ok := by
  intro l
  induction l with
  | nil =>
    intro tmp h
    rw [List.map_nil, gatherE_nil] at h
    injection h with h
    rw [List.map_nil, ← h, List.map_nil]
  | cons u l ih =>
    intro tmp h
    rw [List.map_cons] at h
    cases hf : f u with
    | error e => rw [hf, gatherE_cons_error] at h; cases h
    | ok v =>
      rw [hf, gatherE_cons_ok] at h
      cases hg : gatherE (l.map f) with
      | error e => rw [hg] at h; cases h
      | ok vs =>
        rw [hg] at h
        injection h with h
        rw [List.map_cons, hf, ← h, List.map_cons, ih vs hg]

theorem gatherE_of_map_ok {α β : Type} (f : β → Except PyErr α) :
    ∀ (l : List β) (tmp : List α), l.map f = tmp.map Except.ok →
      gatherE (l.map f) = .ok tmp := by
  intro l
  induction l with
  | nil =>
    intro tmp h
    cases tmp with
    | nil => rfl
    | cons v tmp => rw [List.map_nil, List.map_cons] at h; cases h
  | cons u l ih =>
    intro tmp h
    cases tmp with
    | nil => rw [List.map_cons, List.map_nil] at h; cases h
    | cons v tmp =>
      rw [List.map_cons, List.map_cons] at h
      injection h with h1 h2
      rw [List.map_cons, h1, gatherE_cons_ok, ih tmp h2]

theorem gatherE_error_mem {α : Type} :
    ∀ (xs : List (Except PyErr α)) (e : PyErr),
      gatherE xs = .error e → Except.error e ∈ xs := by
  intro xs
  induction xs with
  | nil => intro e h; rw [gatherE_nil] at h; cases h
  | cons x xs ih =>
    intro e h
    cases x with
    | error e' =>
      rw [gatherE_cons_error] at h
      injection h with h
      rw [h]
      exact List.mem_cons_self _ _
    | ok v =>
      rw [gatherE_cons_ok] at h
      cases hg : gatherE xs with
      | error e' =>
        rw [hg] at h
        injection h with h
        rw [← h]
        exact List.mem_cons_of_mem _ (ih e' hg)
      | ok vs => rw [hg] at h; cases h

theorem fetch_subscription_error_binascii (net : String → HttpResult)
    (u sid : String) (e : PyErr) (h : fetch_subscription net u sid = .error e) :
    e = .binasciiError := by
  unfold fetch_subscription at h
  split at h
  · split at h
    · cases h
    · injection h with h
      exact h.symm
  · cases h
  · cases h

theorem map_fetchOutcome_of_map_ok (net : String → HttpResult) (sid : String) :
    ∀ (subs : List String) (tmp : List (Option (List Nat))),
      subs.map (fun u => fetch_subscription net u sid) = tmp.map Except.ok →
      subs.map (fetchOutcome net sid) = tmp := by
  intro subs
  induction subs with
  | nil =>
    intro tmp h
    cases tmp with
    | nil => rfl
    | cons v tmp => rw [List.map_nil, List.map_cons] at h; cases h
  | cons u subs ih =>
    intro tmp h
    cases tmp with
    | nil => rw [List.map_cons, List.map_nil] at h; cases h
    | cons o tmp =>
      rw [List.map_cons, List.map_cons] at h
      injection h with h1 h2
      rw [List.map_cons, ih tmp h2]
      have : fetchOutcome net sid u = o := by
        unfold fetchOutcome
        rw [h1]
      rw [this]

theorem bjoin_nil_flatten : ∀ ls : List (List Nat), bjoin [] ls = ls.flatten := by
  intro ls
  induction ls with
  | nil => rfl
  | cons b bs ih =>
    cases bs with
    | nil => simp [bjoin]
    | cons c cs => simp [bjoin, List.flatten_cons] at ih ⊢; rw [ih]

theorem bjoin_intercalate (sep : List Nat) :
    ∀ ls : List (List Nat), bjoin sep ls = List.intercalate sep ls := by
  intro ls
  induction ls with
  | nil => rfl
  | cons b bs ih =>
    cases bs with
    | nil => simp [bjoin, List.intercalate]
    | cons c cs =>
      simp only [bjoin] at ih ⊢
      rw [ih, List.intercalate, List.intercalate,
        List.intersperse_cons_cons, List.flatten_cons, List.flatten_cons,
        List.append_assoc]

theorem mem_bjoin (sep : List Nat) :
    ∀ (ls : List (List Nat)) (b : Nat), b ∈ bjoin sep ls →
      b ∈ sep ∨ ∃ l ∈ ls, b ∈ l := by
  intro ls
  induction ls with
  | nil => intro b hb; cases hb
  | cons x bs ih =>
    intro b hb
    cases bs with
    | nil =>
      right
      exact ⟨x, by simp, hb⟩
    | cons c cs =>
      simp only [bjoin, List.mem_append] at hb
      rcases hb with (hb | hb) | hb
      · right; exact ⟨x, by simp, hb⟩
      · left; exact hb
      · rcases ih b hb with h | ⟨l, hl, hbl⟩
        · left; exact h
        · right; exact ⟨l, by simp [hl], hbl⟩

theorem b64val_b64chr_fin : ∀ i : Fin 64, b64val (b64chr i.val) = some i.val := by
  decide

theorem b64val_b64chr (n : Nat) (h : n < 64) : b64val (b64chr n) = some n :=
  b64val_b64chr_fin ⟨n, h⟩

theorem b64chr_ne_pad (n : Nat) (h : n < 64) : b64chr n ≠ '=' := by
  intro he
  have h1 := b64val_b64chr n h
  rw [he, show b64val '=' = none from by decide] at h1
  cases h1

theorem filter_b64encodeChars :
    ∀ bs : List Nat, (∀ b ∈ bs, b < 256) →
      (b64encodeChars bs).filter (fun c => (b64val c).isSome || c == '=')
        = b64encodeChars bs
  | [], _ => rfl
  | [x], h => by
    have hx : x < 256 := h x (by simp)
    have h1 := b64val_b64chr (x / 4) (by omega)
    have h2 := b64val_b64chr (x % 4 * 16) (by omega)
    simp [b64encodeChars, List.filter, h1, h2]
  | [x, y], h => by
    have hx : x < 256 := h x (by simp)
    have hy : y < 256 := h y (by simp)
    have h1 := b64val_b64chr (x / 4) (by omega)
    have h2 := b64val_b64chr (x % 4 * 16 + y / 16) (by omega)
    have h3 := b64val_b64chr (y % 16 * 4) (by omega)
    simp [b64encodeChars, List.filter, h1, h2, h3]
  | x :: y :: z :: rest, h => by
    have hx : x < 256 := h x (by simp)
    have hy : y < 256 := h y (by simp)
    have hz : z < 256 := h z (by simp)
    have h1 := b64val_b64chr (x / 4) (by omega)
    have h2 := b64val_b64chr (x % 4 * 16 + y / 16) (by omega)
    have h3 := b64val_b64chr (y % 16 * 4 + z / 64) (by omega)
    have h4 := b64val_b64chr (z % 64) (by omega)
    have ih := filter_b64encodeChars rest (fun b hb => h b (by simp [hb]))
    simp [b64encodeChars, List.filter, h1, h2, h3, h4, ih]

theorem decode_b64encodeChars :
    ∀ bs : List Nat, (∀ b ∈ bs, b < 256) →
      b64decodeChars (b64encodeChars bs) = some bs
  | [], _ => rfl
  | [x], h => by
    have hx : x < 256 := h x (by simp)
    have h1 := b64val_b64chr (x / 4) (by omega)
    have h2 := b64val_b64chr (x % 4 * 16) (by omega)
    simp [b64encodeChars, b64decodeChars, h1, h2]
    omega
  | [x, y], h => by
    have hx : x < 256 := h x (by simp)
    have hy : y < 256 := h y (by simp)
    have h1 := b64val_b64chr (x / 4) (by omega)
    have h2 := b64val_b64chr (x % 4 * 16 + y / 16) (by omega)
    have h3 := b64val_b64chr (y % 16 * 4) (by omega)
    have hne := b64chr_ne_pad (y % 16 * 4) (by omega)
    simp [b64encodeChars, b64decodeChars, h1, h2, h3, hne]
    omega
  | x :: y :: z :: rest, h => by
    have hx : x < 256 := h x (by simp)
    have hy : y < 256 := h y (by simp)
    have hz : z < 256 := h z (by simp)
    have h1 := b64val_b64chr (x / 4) (by omega)
    have h2 := b64val_b64chr (x % 4 * 16 + y / 16) (by omega)
    have h3 := b64val_b64chr (y % 16 * 4 + z / 64) (by omega)
    have h4 := b64val_b64chr (z % 64) (by omega)
    have hne3 := b64chr_ne_pad (y % 16 * 4 + z / 64) (by omega)
    have hne4 := b64chr_ne_pad (z % 64) (by omega)
    have ih := decode_b64encodeChars rest (fun b hb => h b (by simp [hb]))
    simp [b64encodeChars, b64decodeChars, h1, h2, h3, h4, hne3, hne4, ih]
    omega

theorem b64_roundtrip (bs : List Nat) (h : ∀ b ∈ bs, b < 256) :
    b64decode (b64encode bs) = some bs := by
  unfold b64decode b64encode
  rw [show (⟨b64encodeChars bs⟩ : String).data = b64encodeChars bs from rfl]
  rw [filter_b64encodeChars bs h]
  exact decode_b64encodeChars bs h

theorem char_toNat_lt (c : Char) : c.toNat < 1114112 := by
  have h : c.val.toNat < 0xd800 ∨ (0xdfff < c.val.toNat ∧ c.val.toNat < 0x110000) :=
    c.valid
  have he : c.toNat = c.val.toNat := rfl
  rw [he]
  rcases h with h | ⟨_, h⟩ <;> omega

theorem utf8Encode_lt (c : Char) : ∀ b ∈ utf8Encode c, b < 256 := by
  intro b hb
  have hc := char_toNat_lt c
  simp only [utf8Encode] at hb
  split_ifs at hb with h1 h2 h3 <;> simp at hb
  · omega
  · rcases hb with rfl | rfl <;> omega
  · rcases hb with rfl | rfl | rfl <;> omega
  · rcases hb with rfl | rfl | rfl | rfl <;> omega

theorem strToBytes_lt (s : String) : ∀ b ∈ strToBytes s, b < 256 := by
  intro b hb
  simp only [strToBytes, List.mem_flatten, List.mem_map] at hb
  obtain ⟨l, ⟨c, _, rfl⟩, hbl⟩ := hb
  exact utf8Encode_lt c b hbl

theorem intercalate_newline_lt (vless : List String) :
    ∀ b ∈ List.intercalate [10] (vless.map strToBytes), b < 256 := by
  intro b hb
  rw [← bjoin_intercalate] at hb
  rcases mem_bjoin [10] (vless.map strToBytes) b hb with h | ⟨l, hl, hbl⟩
  · simp at h
    omega
  · rw [List.mem_map] at hl
    obtain ⟨s, _, rfl⟩ := hl
    exact strToBytes_lt s b hbl

theorem _get_env_eq_none_iff (env : String → Option String) (n : String) :
    _get_env env n = none ↔ blankEnv env n := by
  unfold _get_env blankEnv
  cases he : env n with
  | none => simp
  | some w =>
    dsimp only
    by_cases hw : pyStrip w = ""
    · rw [if_pos hw]
      simp [hw]
    · rw [if_neg hw]
      constructor
      · intro h; cases h
      · rintro (h | ⟨v, hv, hsv⟩)
        · cases h
        · injection hv with hv
          rw [← hv] at hsv
          exact absurd hsv hw

theorem _get_env_some_ne_empty (env : String → Option String) (n v : String)
    (h : _get_env env n = some v) : v ≠ "" := by
  unfold _get_env at h
  cases he : env n with
  | none => rw [he] at h; cases h
  | some w =>
    rw [he] at h
    dsimp only at h
    by_cases hw : pyStrip w = ""
    · rw [if_pos hw] at h; cases h
    · rw [if_neg hw] at h
      injection h with h
      rw [← h]
      exact hw

theorem filterMap_pairs_mem (l : List (String × Option String)) (k v : String) :
    (k, v) ∈ l.filterMap (fun kv =>
      match kv.2 with
      | some value => if value = "" then none else some (kv.1, value)
      | none => none)
    ↔ (k, some v) ∈ l ∧ v ≠ "" := by
  rw [List.mem_filterMap]
  constructor
  · rintro ⟨⟨k', o⟩, hmem, hf⟩
    cases o with
    | none => cases hf
    | some v' =>
      dsimp only at hf
      by_cases hv : v' = ""
      · rw [if_pos hv] at hf; cases hf
      · rw [if_neg hv] at hf
        injection hf with hf
        have h1 : k' = k := congrArg Prod.fst hf
        have h2 : v' = v := congrArg Prod.snd hf
        rw [h1, h2] at hmem
        rw [h2] at hv
        exact ⟨hmem, hv⟩
  · rintro ⟨hmem, hv⟩
    exact ⟨(k, some v), hmem, by dsimp only; rw [if_neg hv]⟩

theorem mem_build_optional_headers (env : String → Option String) (k v : String) :
    (k, v) ∈ build_optional_headers env
    ↔ v ≠ "" ∧
      ((k = "profile-title" ∧ profile_title env = some v)
       ∨ (k = "support-url" ∧ _get_env env "SUPPORT_URL" = some v)
       ∨ (k = "profile-web-page-url" ∧ _get_env env "PROFILE_WEB_PAGE_URL" = some v)
       ∨ (k = "announce" ∧ _get_env env "ANNOUNCE" = some v)
       ∨ (k = "profile-update-interval" ∧ _get_env env "PROFILE_UPDATE_INTERVAL" = some v)
       ∨ (k = "providerid" ∧ _get_env env "PROVIDER_ID" = some v)) := by
  rw [build_optional_headers, filterMap_pairs_mem]
  simp only [List.mem_cons, List.not_mem_nil, or_false, Prod.mk.injEq]
  constructor
  · rintro ⟨hd, hv⟩
    refine ⟨hv, ?_⟩
    rcases hd with ⟨h1, h2⟩ | ⟨h1, h2⟩ | ⟨h1, h2⟩ | ⟨h1, h2⟩ | ⟨h1, h2⟩ | ⟨h1, h2⟩ <;>
      simp [h1, h2.symm]
  · rintro ⟨hv, hd⟩
    refine ⟨?_, hv⟩
    rcases hd with ⟨h1, h2⟩ | ⟨h1, h2⟩ | ⟨h1, h2⟩ | ⟨h1, h2⟩ | ⟨h1, h2⟩ | ⟨h1, h2⟩ <;>
      simp [h1, h2]

theorem map_eq_map_ok_forall {α β : Type} (f : β → Except PyErr α) :
    ∀ (l : List β) (tmp : List α), l.map f = tmp.map Except.ok →
      ∀ u ∈ l, ∃ o ∈ tmp, f u = .ok o := by
  intro l
  induction l with
  | nil => intro tmp _ u hu; cases hu
  | cons a l ih =>
    intro tmp h u hu
    cases tmp with
    | nil => rw [List.map_cons, List.map_nil] at h; cases h
    | cons o tmp =>
      rw [List.map_cons, List.map_cons] at h
      injection h with h1 h2
      rcases List.mem_cons.mp hu with rfl | hu
      · exact ⟨o, by simp, h1⟩
      · obtain ⟨o', ho', hf⟩ := ih tmp h2 u hu
        exact ⟨o', by simp [ho'], hf⟩

theorem gatherE_all_none (net : String → HttpResult) (sid : String)
    (subs : List String)
    (hall : ∀ u ∈ subs, fetch_subscription net u sid = .ok none) :
    gatherE (subs.map fun u => fetch_subscription net u sid)
      = .ok (subs.map fun _ => none) := by
  apply gatherE_of_map_ok
  rw [List.map_map]
  exact List.map_congr_left hall

theorem merge_nothing_iff (net : String → HttpResult) (subs vless : List String)
    (sid : String) :
    merge_all net subs vless sid
      = .error (.httpException 500 "There is nothing to return")
    ↔ vless = [] ∧ ∀ u ∈ subs, fetch_subscription net u sid = .ok none := by
  unfold merge_all
  cases hg : gatherE (subs.map fun u => fetch_subscription net u sid) with
  | error e =>
    have he : e = .binasciiError := by
      have hmem := gatherE_error_mem _ e hg
      rw [List.mem_map] at hmem
      obtain ⟨u, _, hfe⟩ := hmem
      exact fetch_subscription_error_binascii net u sid e hfe
    constructor
    · intro h
      injection h with h
      rw [he] at h
      cases h
    · rintro ⟨_, hall⟩
      rw [gatherE_all_none net sid subs hall] at hg
      cases hg
  | ok tmp =>
    have hmap := gatherE_map_ok _ subs tmp hg
    dsimp only
    by_cases hc : tmp.filterMap id = [] ∧ vless = []
    · rw [if_pos hc]
      refine iff_of_true rfl ⟨hc.2, ?_⟩
      intro u hu
      obtain ⟨o, ho, hf⟩ := map_eq_map_ok_forall _ subs tmp hmap u hu
      have hnone : o = none := by
        have h2 := List.filterMap_eq_nil_iff.mp hc.1 o ho
        simpa using h2
      rw [hnone] at hf
      exact hf
    · rw [if_neg hc]
      constructor
      · intro h; cases h
      · rintro ⟨hv, hall⟩
        rw [gatherE_all_none net sid subs hall] at hg
        injection hg with hg
        refine absurd ⟨?_, hv⟩ hc
        rw [← hg]
        simp

theorem merge_all_all_none (net : String → HttpResult) (sid : String)
    (subs vless : List String)
    (hall : ∀ u ∈ subs, fetch_subscription net u sid = .ok none)
    (hv : vless ≠ []) :
    merge_all net subs vless sid
      = .ok (List.intercalate [10] (vless.map strToBytes)) := by
  unfold merge_all
  rw [gatherE_all_none net sid subs hall]
  dsimp only
  rw [if_neg (fun hc => hv hc.2)]
  have hdata : ((subs.map fun _ => (none : Option (List Nat))).filterMap id) = [] := by
    simp
  rw [hdata, show bjoin ([] : List Nat) [] = ([] : List Nat) from rfl,
    List.nil_append, bjoin_intercalate]

/-! ## Claims -/

/-- C1: whenever `merge_all` produces a payload, it is exactly the
spec's MergedPayload: the successful fetch payloads concatenated in the
order of the input endpoint list (the outcome slots are indexed by input
position, not completion order) with no separator bytes, followed
directly by the inline entries joined by a single newline byte, with no
separator between the two blocks. -/
theorem C1_merge_order (net : String → HttpResult) (subs vless : List String)
    (sid : String) (b : List Nat)
    (h : merge_all net subs vless sid = .ok b) :
    b = mergedPayloadSpec (subs.map (fetchOutcome net sid)) vless := by
  unfold merge_all at h
  cases hg : gatherE (subs.map fun u => fetch_subscription net u sid) with
  | error e => rw [hg] at h; cases h
  | ok tmp =>
    rw [hg] at h
    dsimp only at h
    by_cases hc : tmp.filterMap id = [] ∧ vless = []
    · rw [if_pos hc] at h; cases h
    · rw [if_neg hc] at h
      injection h with h
      rw [← h]
      unfold mergedPayloadSpec
      rw [map_fetchOutcome_of_map_ok net sid subs tmp (gatherE_map_ok _ subs tmp hg)]
      rw [bjoin_nil_flatten, bjoin_intercalate]

/-- Witness for C1 at a concrete input: two endpoints both returning the
base64 of `"A"`, one inline entry. -/
theorem C1_merge_order_witness :
    strToBytes "AAvless://x"
      = mergedPayloadSpec
          (List.map (fetchOutcome (fun _ => .success "QQ==") "id")
            ["https://u1/", "https://u2/"])
          ["vless://x"] :=
  C1_merge_order (fun _ => .success "QQ==") ["https://u1/", "https://u2/"]
    ["vless://x"] "id" (strToBytes "AAvless://x") (by decide)

/-- C2 fails on the code: in the spec's end-to-end scenario the merged
bytes are `"A" + "vless://user@host:443?x=1"` — `merge_all` inserts no
newline between the subscription block and the single inline entry
(`b"\n".join` of one element adds no separator) — so the response body is
not the base64 of `"A" + "\n" + "vless://user@host:443?x=1"`. -/
theorem C2_counterexample :
    app.main (fun _ => none) none
      (.success "https://sub.example/\nvless://user@host:443?x=1")
      (fun u => if u = "https://sub.example/abc" then .success "QQ=="
                else .transportError)
      "abc"
    = .ok { content := b64encode (strToBytes "Avless://user@host:443?x=1"),
            media_type := "text/plain", headers := [] }
    ∧ b64encode (strToBytes "Avless://user@host:443?x=1")
      ≠ b64encode (strToBytes ("A" ++ "\n" ++ "vless://user@host:443?x=1")) := by
  constructor
  · decide
  · decide

/-- C2 amended: in the end-to-end scenario the merged raw bytes are
`"A"` followed immediately by `"vless://user@host:443?x=1"` (no newline
between the subscription block and the inline block), and the response
body is the base64 of that byte string. -/
theorem C2_amended_end_to_end :
    merge_all
      (fun u => if u = "https://sub.example/abc" then .success "QQ=="
                else .transportError)
      ["https://sub.example/"] ["vless://user@host:443?x=1"] "abc"
      = .ok (strToBytes "Avless://user@host:443?x=1")
    ∧ app.main (fun _ => none) none
        (.success "https://sub.example/\nvless://user@host:443?x=1")
        (fun u => if u = "https://sub.example/abc" then .success "QQ=="
                  else .transportError)
        "abc"
      = .ok { content := b64encode (strToBytes "Avless://user@host:443?x=1"),
              media_type := "text/plain", headers := [] } := by
  constructor
  · decide
  · decide

/-- C3 fails on the code: a 2xx response whose body is not valid base64
(here `"A"`, which `base64.b64decode` rejects) makes `fetch_subscription`
raise an uncaught `binascii.Error` instead of returning the absent
outcome — only `httpx.HTTPError` is caught. -/
theorem C3_counterexample :
    fetch_subscription (fun _ => .success "A") "https://sub.example/" "abc"
      = .error .binasciiError
    ∧ b64decode "A" = none
    ∧ fetch_subscription (fun _ => .success "A") "https://sub.example/" "abc"
      ≠ .ok none := by
  refine ⟨by decide, by decide, by decide⟩

/-- C3 amended: a fetch whose HTTP request succeeds but whose body fails
base64 decoding raises an uncaught `binascii.Error`, which propagates
through `gather` out of `merge_all` and crashes the request (rather than
being dropped as an absent outcome). -/
theorem C3_amended_decode_raises (net : String → HttpResult)
    (link sid body : String) (vless : List String)
    (hs : net (link ++ sid) = .success body) (hd : b64decode body = none) :
    fetch_subscription net link sid = .error .binasciiError
    ∧ merge_all net [link] vless sid = .error .binasciiError := by
  have h1 : fetch_subscription net link sid = .error .binasciiError := by
    unfold fetch_subscription
    rw [hs]
    dsimp only
    rw [hd]
  refine ⟨h1, ?_⟩
  unfold merge_all
  rw [List.map_cons, List.map_nil, h1, gatherE_cons_error]

/-- Witness for C3 amended: body `"QQ"` (incorrect padding). -/
theorem C3_amended_witness :
    fetch_subscription (fun _ => .success "QQ") "https://s/" "id"
      = .error .binasciiError
    ∧ merge_all (fun _ => .success "QQ") ["https://s/"] [] "id"
      = .error .binasciiError :=
  C3_amended_decode_raises _ "https://s/" "id" "QQ" [] rfl (by decide)

/-- C4 fails on the code: a transport error (e.g. a timeout) during the
remote source-list fetch is caught by neither handler of `fetch_links`
— only `httpx.HTTPStatusError` maps to `HTTPException(404)` — so it
propagates as an unhandled error, not as the 404 response. -/
theorem C4_counterexample :
    fetch_links false none .transportError = .error .transportError
    ∧ fetch_links false none .transportError
      ≠ .error (.httpException 404 "Config file not found") := by
  refine ⟨by decide, by decide⟩

/-- C4 amended: in remote mode a non-2xx source-list response maps to
`HTTPException(404, "Config file not found")`, but a transport error
(including a timeout) propagates unhandled; in local mode a missing file
is re-raised as an unhandled fatal error. -/
theorem C4_amended_fetch_links (fileRes : Option (List String))
    (cfgRes : HttpResult) :
    fetch_links false fileRes .statusError
      = .error (.httpException 404 "Config file not found")
    ∧ fetch_links false fileRes .transportError = .error .transportError
    ∧ fetch_links true none cfgRes = .error .fileNotFound :=
  ⟨rfl, rfl, rfl⟩

/-- C5: a subscription fetch that ends in a transport error or a non-2xx
status yields the absent outcome, and the failure is never propagated:
the merge over any endpoint list containing that endpoint equals the
merge with the endpoint removed — the other fetches' results and the
response are as if it had contributed nothing. -/
theorem C5_failure_isolated (net : String → HttpResult) (e sid : String)
    (pre post vless : List String)
    (hfail : net (e ++ sid) = .statusError ∨ net (e ++ sid) = .transportError) :
    fetch_subscription net e sid = .ok none
    ∧ merge_all net (pre ++ e :: post) vless sid
      = merge_all net (pre ++ post) vless sid := by
  have h1 : fetch_subscription net e sid = .ok none := by
    unfold fetch_subscription
    rcases hfail with h | h <;> rw [h]
  refine ⟨h1, ?_⟩
  unfold merge_all
  rw [List.map_append, List.map_append, List.map_cons, h1]
  rw [gatherE_append, gatherE_append, gatherE_cons_ok]
  cases gatherE (pre.map fun u => fetch_subscription net u sid) with
  | error e' => rfl
  | ok vs =>
    cases gatherE (post.map fun u => fetch_subscription net u sid) with
    | error e' => rfl
    | ok ws =>
      dsimp only
      rw [List.filterMap_append, List.filterMap_append, List.filterMap_cons]
      rfl

/-- Witness for C5: endpoint `"bad/"` fails with a non-2xx status while
`"https://g/"` succeeds; removing `"bad/"` leaves the merge unchanged. -/
theorem C5_failure_isolated_witness :
    fetch_subscription
        (fun u => if u = "bad/id" then .statusError else .success "QQ==")
        "bad/" "id" = .ok none
    ∧ merge_all (fun u => if u = "bad/id" then .statusError else .success "QQ==")
        (["https://g/"] ++ "bad/" :: []) ["vless://x"] "id"
      = merge_all (fun u => if u = "bad/id" then .statusError else .success "QQ==")
        (["https://g/"] ++ []) ["vless://x"] "id" :=
  C5_failure_isolated _ "bad/" "id" ["https://g/"] [] ["vless://x"]
    (Or.inl (by decide))

/-- C6: given the classified source list `(subs, vless)`, the request
fails with `HTTPException(500, "There is nothing to return")` exactly
when there is nothing to serve: either both classified lists are empty
(the fail-fast check in `main`), or every subscription fetch returns the
absent outcome and there are no inline entries (the check in
`merge_all`); in every other case that error is not raised. -/
theorem C6_nothing_to_return_iff (env : String → Option String)
    (fileRes : Option (List String)) (cfgRes : HttpResult)
    (net : String → HttpResult) (sid : String) (subs vless : List String)
    (hf : fetch_links (env "LOCAL_MODE" == some "on") fileRes cfgRes
      = .ok (subs, vless)) :
    app.main env fileRes cfgRes net sid
      = .error (.httpException 500 "There is nothing to return")
    ↔ (subs = [] ∧ vless = [])
      ∨ (vless = [] ∧ ∀ u ∈ subs, fetch_subscription net u sid = .ok none) := by
  unfold app.main
  rw [hf]
  dsimp only
  by_cases hc : subs = [] ∧ vless = []
  · rw [if_pos hc]
    exact iff_of_true rfl (Or.inl hc)
  · rw [if_neg hc]
    cases hm : merge_all net subs vless sid with
    | error e =>
      constructor
      · intro h
        injection h with h
        right
        exact (merge_nothing_iff net subs vless sid).mp (by rw [hm, h])
      · rintro (h | h)
        · exact absurd h hc
        · have h2 := (merge_nothing_iff net subs vless sid).mpr h
          rw [hm] at h2
          injection h2 with h2
          rw [h2]
    | ok r =>
      constructor
      · intro h
        cases h
      · rintro (h | h)
        · exact absurd h hc
        · have h2 := (merge_nothing_iff net subs vless sid).mpr h
          rw [hm] at h2
          cases h2

/-- Witness for C6: an empty remote source list makes the request fail
with the 500 "There is nothing to return" error. -/
theorem C6_nothing_to_return_witness :
    app.main (fun _ => none) none (.success "") (fun _ => .transportError) ""
      = .error (.httpException 500 "There is nothing to return") :=
  (C6_nothing_to_return_iff (fun _ => none) none (.success "")
    (fun _ => .transportError) "" [] [] (by decide)).mpr (Or.inl ⟨rfl, rfl⟩)

/-- C7: when every subscription fetch returns the absent outcome but the
inline list is non-empty, the request still succeeds (an `HttpResponse`
value, i.e. HTTP 200) and the body is the base64 of exactly the inline
entries joined by a single newline byte — decoding the body gives back
exactly those joined bytes. -/
theorem C7_inline_only (env : String → Option String)
    (fileRes : Option (List String)) (cfgRes : HttpResult)
    (net : String → HttpResult) (sid : String) (subs vless : List String)
    (hf : fetch_links (env "LOCAL_MODE" == some "on") fileRes cfgRes
      = .ok (subs, vless))
    (hall : ∀ u ∈ subs, fetch_subscription net u sid = .ok none)
    (hv : vless ≠ []) :
    app.main env fileRes cfgRes net sid
      = .ok { content := b64encode (List.intercalate [10] (vless.map strToBytes)),
              media_type := "text/plain",
              headers := build_optional_headers env }
    ∧ b64decode (b64encode (List.intercalate [10] (vless.map strToBytes)))
      = some (List.intercalate [10] (vless.map strToBytes)) := by
  constructor
  · unfold app.main
    rw [hf]
    dsimp only
    rw [if_neg (fun hc => hv hc.2), merge_all_all_none net sid subs vless hall hv]
  · exact b64_roundtrip _ (intercalate_newline_lt vless)

/-- Witness for C7: the only endpoint answers with a non-2xx status, and
the one inline entry alone makes up the 200 response body. -/
theorem C7_inline_only_witness :
    app.main (fun _ => none) none (.success "https://a/\nvless://x")
      (fun _ => .statusError) ""
      = .ok { content := b64encode (List.intercalate [10]
                (List.map strToBytes ["vless://x"])),
              media_type := "text/plain",
              headers := build_optional_headers (fun _ => none) }
    ∧ b64decode (b64encode (List.intercalate [10]
          (List.map strToBytes ["vless://x"])))
      = some (List.intercalate [10] (List.map strToBytes ["vless://x"])) :=
  C7_inline_only (fun _ => none) none (.success "https://a/\nvless://x")
    (fun _ => .statusError) "" ["https://a/"] ["vless://x"]
    (by decide) (by decide) (by decide)

/-- C8: classification is total and idempotent.  For any line of the
input: its stripped text goes to the endpoint list if it starts with
`http` and to the inline list if it starts with `vless://`; no text can
satisfy both prefixes (so with the converse inclusions every line lands
in exactly one of endpoint / inline / dropped); every element of the two
output lists satisfies its defining prefix; and re-classifying the two
output lists reproduces exactly the same two lists. -/
theorem C8_classify_total_idempotent (lines : List String) (line : String)
    (hmem : line ∈ lines) :
    (pyStartswith (pyStrip line) "http" = true
      → pyStrip line ∈ (classify lines).1)
    ∧ (pyStartswith (pyStrip line) "vless://" = true
      → pyStrip line ∈ (classify lines).2)
    ∧ (pyStartswith (pyStrip line) "http"
        && pyStartswith (pyStrip line) "vless://") = false
    ∧ (∀ x ∈ (classify lines).1, pyStartswith x "http" = true)
    ∧ (∀ x ∈ (classify lines).2, pyStartswith x "vless://" = true)
    ∧ classify ((classify lines).1 ++ (classify lines).2) = classify lines := by
  refine ⟨?_, ?_, http_vless_exclusive _, ?_, ?_, classify_reclassify lines⟩
  · intro hc
    exact (classify_fst_mem lines _).mpr ⟨line, hmem, rfl, hc⟩
  · intro hc
    exact (classify_snd_mem lines _).mpr ⟨line, hmem, rfl, hc⟩
  · intro x hx
    exact (classify_fst_spec lines x hx).2
  · intro x hx
    exact (classify_snd_spec lines x hx).2

/-- Witness for C8: the stripped `vless://` line of a concrete list is
classified into the inline list. -/
theorem C8_classify_witness :
    pyStrip " vless://b " ∈ (classify [" http://a ", " vless://b ", "", "ftp://c"]).2 :=
  (C8_classify_total_idempotent [" http://a ", " vless://b ", "", "ftp://c"]
    " vless://b " (by decide)).2.1 (by decide)

/-- C9: no optional header is ever emitted with an empty value, and
each optional header key is entirely absent from the header set when its
configuration value is unset, empty or whitespace-only (for
`profile-title`, whose configured value falls back from `PROFILE_TITLE`
to `SUB_NAME`, when both are blank). -/
theorem C9_optional_headers_absent (env : String → Option String) :
    (∀ p ∈ build_optional_headers env, p.2 ≠ "")
    ∧ (blankEnv env "SUPPORT_URL"
        → ∀ v, ("support-url", v) ∉ build_optional_headers env)
    ∧ (blankEnv env "PROFILE_WEB_PAGE_URL"
        → ∀ v, ("profile-web-page-url", v) ∉ build_optional_headers env)
    ∧ (blankEnv env "ANNOUNCE"
        → ∀ v, ("announce", v) ∉ build_optional_headers env)
    ∧ (blankEnv env "PROFILE_UPDATE_INTERVAL"
        → ∀ v, ("profile-update-interval", v) ∉ build_optional_headers env)
    ∧ (blankEnv env "PROVIDER_ID"
        → ∀ v, ("providerid", v) ∉ build_optional_headers env)
    ∧ (blankEnv env "PROFILE_TITLE" → blankEnv env "SUB_NAME"
        → ∀ v, ("profile-title", v) ∉ build_optional_headers env) := by
  refine ⟨?_, ?_, ?_, ?_, ?_, ?_, ?_⟩
  · rintro ⟨k, v⟩ hp
    exact ((mem_build_optional_headers env k v).mp hp).1
  · intro hbl v hmem
    have hnone := (_get_env_eq_none_iff env "SUPPORT_URL").mpr hbl
    rcases ((mem_build_optional_headers env _ v).mp hmem).2 with
      ⟨hk, _⟩ | ⟨_, he⟩ | ⟨hk, _⟩ | ⟨hk, _⟩ | ⟨hk, _⟩ | ⟨hk, _⟩
    · exact absurd hk (by decide)
    · rw [hnone] at he; cases he
    · exact absurd hk (by decide)
    · exact absurd hk (by decide)
    · exact absurd hk (by decide)
    · exact absurd hk (by decide)
  · intro hbl v hmem
    have hnone := (_get_env_eq_none_iff env "PROFILE_WEB_PAGE_URL").mpr hbl
    rcases ((mem_build_optional_headers env _ v).mp hmem).2 with
      ⟨hk, _⟩ | ⟨hk, _⟩ | ⟨_, he⟩ | ⟨hk, _⟩ | ⟨hk, _⟩ | ⟨hk, _⟩
    · exact absurd hk (by decide)
    · exact absurd hk (by decide)
    · rw [hnone] at he; cases he
    · exact absurd hk (by decide)
    · exact absurd hk (by decide)
    · exact absurd hk (by decide)
  · intro hbl v hmem
    have hnone := (_get_env_eq_none_iff env "ANNOUNCE").mpr hbl
    rcases ((mem_build_optional_headers env _ v).mp hmem).2 with
      ⟨hk, _⟩ | ⟨hk, _⟩ | ⟨hk, _⟩ | ⟨_, he⟩ | ⟨hk, _⟩ | ⟨hk, _⟩
    · exact absurd hk (by decide)
    · exact absurd hk (by decide)
    · exact absurd hk (by decide)
    · rw [hnone] at he; cases he
    · exact absurd hk (by decide)
    · exact absurd hk (by decide)
  · intro hbl v hmem
    have hnone := (_get_env_eq_none_iff env "PROFILE_UPDATE_INTERVAL").mpr hbl
    rcases ((mem_build_optional_headers env _ v).mp hmem).2 with
      ⟨hk, _⟩ | ⟨hk, _⟩ | ⟨hk, _⟩ | ⟨hk, _⟩ | ⟨_, he⟩ | ⟨hk, _⟩
    · exact absurd hk (by decide)
    · exact absurd hk (by decide)
    · exact absurd hk (by decide)
    · exact absurd hk (by decide)
    · rw [hnone] at he; cases he
    · exact absurd hk (by decide)
  · intro hbl v hmem
    have hnone := (_get_env_eq_none_iff env "PROVIDER_ID").mpr hbl
    rcases ((mem_build_optional_headers env _ v).mp hmem).2 with
      ⟨hk, _⟩ | ⟨hk, _⟩ | ⟨hk, _⟩ | ⟨hk, _⟩ | ⟨hk, _⟩ | ⟨_, he⟩
    · exact absurd hk (by decide)
    · exact absurd hk (by decide)
    · exact absurd hk (by decide)
    · exact absurd hk (by decide)
    · exact absurd hk (by decide)
    · rw [hnone] at he; cases he
  · intro hbl1 hbl2 v hmem
    have hn1 := (_get_env_eq_none_iff env "PROFILE_TITLE").mpr hbl1
    have hn2 := (_get_env_eq_none_iff env "SUB_NAME").mpr hbl2
    rcases ((mem_build_optional_headers env _ v).mp hmem).2 with
      ⟨_, he⟩ | ⟨hk, _⟩ | ⟨hk, _⟩ | ⟨hk, _⟩ | ⟨hk, _⟩ | ⟨hk, _⟩
    · rw [profile_title, hn1, hn2] at he; cases he
    · exact absurd hk (by decide)
    · exact absurd hk (by decide)
    · exact absurd hk (by decide)
    · exact absurd hk (by decide)
    · exact absurd hk (by decide)

/-- C10: when `PROFILE_TITLE` is unset or blank and `SUB_NAME` is set to
a value that does not strip to empty, the response headers contain
`profile-title` with exactly the stripped `SUB_NAME` value. -/
theorem C10_profile_title_fallback (env : String → Option String) (v : String)
    (h1 : blankEnv env "PROFILE_TITLE") (h2 : env "SUB_NAME" = some v)
    (h3 : pyStrip v ≠ "") :
    ("profile-title", pyStrip v) ∈ build_optional_headers env := by
  have hpt : _get_env env "PROFILE_TITLE" = none :=
    (_get_env_eq_none_iff env "PROFILE_TITLE").mpr h1
  have hsn : _get_env env "SUB_NAME" = some (pyStrip v) := by
    unfold _get_env
    rw [h2]
    dsimp only
    rw [if_neg h3]
  rw [mem_build_optional_headers]
  refine ⟨h3, Or.inl ⟨rfl, ?_⟩⟩
  rw [profile_title, hpt, hsn]

/-- Witness for C10: `SUB_NAME = " My Sub "` with `PROFILE_TITLE` unset
yields the header `("profile-title", "My Sub")`. -/
theorem C10_profile_title_witness :
    ("profile-title", pyStrip " My Sub ")
      ∈ build_optional_headers
          (fun n => if n = "SUB_NAME" then some " My Sub " else none) :=
  C10_profile_title_fallback _ " My Sub " (Or.inl (by decide)) (by decide)
    (by decide)

